import Mathlib

/-!
Shallow embedding of the cargo-semver-bump core: the commit-type
classifier (src/conventional_commit.rs) and the version decision
engine (src/version_update_handler.rs).
-/

namespace SemverBump

/-- Semantic version: three non-negative components, as in semver::Version
restricted to the major/minor/patch triple the core reads and writes
(the engine never touches pre-release or build metadata). -/
structure Version where
  major : Nat
  minor : Nat
  patch : Nat
deriving DecidableEq, Repr

/-- Strict semver precedence on the three components: major, then minor,
then patch, mirroring the Ord used by `self.current < new_candidate`. -/
def Version.lt (a b : Version) : Prop :=
  a.major < b.major ∨
    (a.major = b.major ∧
      (a.minor < b.minor ∨ (a.minor = b.minor ∧ a.patch < b.patch)))

instance (a b : Version) : Decidable (Version.lt a b) := by
  unfold Version.lt
  infer_instance

/-- Non-strict semver precedence. -/
def Version.le (a b : Version) : Prop :=
  Version.lt a b ∨ a = b

instance (a b : Version) : Decidable (Version.le a b) := by
  unfold Version.le
  infer_instance

/-- Commit record as the engine sees it: the fields of
conventional_commits_parser::Commit, with borrowed string slices made
owned strings and footer entries kept as key/value pairs. The engine
reads only `ty` and the breaking-change flag. -/
structure ConventionalCommit where
  ty : String
  scope : Option String
  desc : String
  body : Option String
  footer : List (String × String)
  is_breaking_change : Bool
deriving DecidableEq, Repr

/-- The commit-type enumeration of src/conventional_commit.rs: eleven
closed variants plus a Custom escape hatch carrying the raw token. -/
inductive ConventionalCommitType where
  | Build
  | Chore
  | Ci
  | Docs
  | Feat
  | Fix
  | Perf
  | Refactor
  | Revert
  | Style
  | Test
  | Custom (raw : String)
deriving DecidableEq, Repr

/-- The strum-derived FromStr with serialize_all snake_case: each
variant name is matched against its exact lowercase-snake serialization
(strum's default matching is case-sensitive), and the disabled Custom
variant is never produced by parsing. -/
def ConventionalCommitType.from_str (s : String) : Option ConventionalCommitType :=
  if s = "build" then some ConventionalCommitType.Build
  else if s = "chore" then some ConventionalCommitType.Chore
  else if s = "ci" then some ConventionalCommitType.Ci
  else if s = "docs" then some ConventionalCommitType.Docs
  else if s = "feat" then some ConventionalCommitType.Feat
  else if s = "fix" then some ConventionalCommitType.Fix
  else if s = "perf" then some ConventionalCommitType.Perf
  else if s = "refactor" then some ConventionalCommitType.Refactor
  else if s = "revert" then some ConventionalCommitType.Revert
  else if s = "style" then some ConventionalCommitType.Style
  else if s = "test" then some ConventionalCommitType.Test
  else none

/-- ConventionalCommitType::new: total classification, falling back to
Custom carrying the original token when FromStr reports
VariantNotFound. -/
def ConventionalCommitType.new (ty_ : String) : ConventionalCommitType :=
  match ConventionalCommitType.from_str ty_ with
  | some type_ => type_
  | none => ConventionalCommitType.Custom ty_

/-- The eleven tokens recognized by the closed enumeration, in source
order. -/
def knownTypeTokens : List String :=
  ["build", "chore", "ci", "docs", "feat", "fix", "perf", "refactor",
   "revert", "style", "test"]

/-- VersionUpdateTooWeak: the typed policy-violation payload returned in
the Err branch. -/
structure VersionUpdateTooWeak where
  expected_at_least : Version
  actual : Version
deriving DecidableEq, Repr

/-- ProcessResult: the Ok-side outcomes of the engine. -/
inductive ProcessResult where
  | Patch (new : Version)
  | ManualChanged (previous current : Version)
deriving DecidableEq, Repr

/-- The input record of VersionUpdateHandler. -/
structure VersionUpdateHandler where
  previous : Version
  current : Version
  commit : ConventionalCommit
deriving DecidableEq, Repr

/-- The new_candidate computation inside get_next_version: the match on
the classified type whose first arm is the guard
`_ if self.commit.is_breaking_change && candidate.major != 0`, then the
Fix arm (patch += 1), the Feat arm (minor += 1, patch = 0), and the
catch-all arm leaving the candidate untouched. -/
def candidateOf (previous : Version) (commit : ConventionalCommit) : Version :=
  let type_ := ConventionalCommitType.new commit.ty
  if commit.is_breaking_change = true ∧ previous.major ≠ 0 then
    Version.mk (previous.major + 1) 0 0
  else
    match type_ with
    | ConventionalCommitType.Fix =>
        { previous with patch := previous.patch + 1 }
    | ConventionalCommitType.Feat =>
        { previous with minor := previous.minor + 1, patch := 0 }
    | _ => previous

/-- VersionUpdateHandler::get_next_version: computes the candidate, then
branches on whether the current version was manually changed; a manual
change below the candidate is the Err(VersionUpdateTooWeak) branch,
otherwise ManualChanged; with no manual change the result is
Patch with the candidate. -/
def VersionUpdateHandler.get_next_version (h : VersionUpdateHandler) :
    Except VersionUpdateTooWeak ProcessResult :=
  let new_candidate := candidateOf h.previous h.commit
  if h.current ≠ h.previous then
    if Version.lt h.current new_candidate then
      Except.error (VersionUpdateTooWeak.mk new_candidate h.current)
    else
      Except.ok (ProcessResult.ManualChanged h.previous h.current)
  else
    Except.ok (ProcessResult.Patch new_candidate)

/-- Exactly one of the three outcome shapes (Patch, ManualChanged,
VersionTooWeak) holds of an engine result. -/
def exactlyOneOutcome (r : Except VersionUpdateTooWeak ProcessResult) : Prop :=
  ((∃ v, r = Except.ok (ProcessResult.Patch v)) ∧
    ¬(∃ a b, r = Except.ok (ProcessResult.ManualChanged a b)) ∧
    ¬(∃ w, r = Except.error w)) ∨
  (¬(∃ v, r = Except.ok (ProcessResult.Patch v)) ∧
    (∃ a b, r = Except.ok (ProcessResult.ManualChanged a b)) ∧
    ¬(∃ w, r = Except.error w)) ∨
  (¬(∃ v, r = Except.ok (ProcessResult.Patch v)) ∧
    ¬(∃ a b, r = Except.ok (ProcessResult.ManualChanged a b)) ∧
    (∃ w, r = Except.error w))

/-- Failing the strict order one way is exactly the non-strict order the
other way: the three-component precedence is total. -/
theorem Version.not_lt_iff_le (a b : Version) :
    ¬ Version.lt a b ↔ Version.le b a := by
  obtain ⟨a1, a2, a3⟩ := a
  obtain ⟨b1, b2, b3⟩ := b
  simp only [Version.lt, Version.le, Version.mk.injEq]
  omega

/-- The strict three-component order is transitive over the non-strict
one. -/
theorem Version.lt_of_lt_of_le (a b c : Version)
    (hab : Version.lt a b) (hbc : Version.le b c) : Version.lt a c := by
  obtain ⟨a1, a2, a3⟩ := a
  obtain ⟨b1, b2, b3⟩ := b
  obtain ⟨c1, c2, c3⟩ := c
  simp only [Version.lt, Version.le, Version.mk.injEq] at *
  omega

/-- A non-strict chain with distinct endpoints is strict. -/
theorem Version.lt_of_le_of_le_of_ne (a b c : Version)
    (hab : Version.le a b) (hbc : Version.le b c) (hne : a ≠ c) :
    Version.lt a c := by
  obtain ⟨a1, a2, a3⟩ := a
  obtain ⟨b1, b2, b3⟩ := b
  obtain ⟨c1, c2, c3⟩ := c
  simp only [Version.lt, Version.le, ne_eq, Version.mk.injEq] at *
  omega

/-- C1: for every previous version with nonzero major and every commit
whose breaking-change flag is set, the candidate is
(previous.major + 1, 0, 0) regardless of the classified type. -/
theorem breaking_change_precedence_c1 (prev : Version) (c : ConventionalCommit)
    (hmaj : prev.major ≠ 0) (hbrk : c.is_breaking_change = true) :
    candidateOf prev c = Version.mk (prev.major + 1) 0 0 := by
  simp only [candidateOf]
  rw [if_pos ⟨hbrk, hmaj⟩]

/-- Witness for C1 at previous = 1.2.3 and a breaking commit of the
unclassified type banana. -/
theorem breaking_change_precedence_c1_witness :
    (Version.mk 1 2 3).major ≠ 0 ∧
    (ConventionalCommit.mk "banana" none "" none [] true).is_breaking_change = true ∧
    candidateOf (Version.mk 1 2 3)
      (ConventionalCommit.mk "banana" none "" none [] true) = Version.mk 2 0 0 :=
  ⟨by decide, rfl,
    breaking_change_precedence_c1 (Version.mk 1 2 3)
      (ConventionalCommit.mk "banana" none "" none [] true) (by decide) rfl⟩

/-- C5: for every previous version and every commit classified Fix whose
breaking-change rule does not fire, the candidate increments patch by one
and keeps major and minor. -/
theorem fix_bump_c5 (prev : Version) (c : ConventionalCommit)
    (hty : ConventionalCommitType.new c.ty = ConventionalCommitType.Fix)
    (hnb : c.is_breaking_change = false ∨ prev.major = 0) :
    candidateOf prev c = Version.mk prev.major prev.minor (prev.patch + 1) := by
  have hguard : ¬(c.is_breaking_change = true ∧ prev.major ≠ 0) := by
    rcases hnb with h | h <;> simp [h]
  simp only [candidateOf]
  rw [if_neg hguard, hty]

/-- Witness for C5 at previous = 1.2.3 and a plain fix commit. -/
theorem fix_bump_c5_witness :
    ConventionalCommitType.new "fix" = ConventionalCommitType.Fix ∧
    candidateOf (Version.mk 1 2 3)
      (ConventionalCommit.mk "fix" none "" none [] false) = Version.mk 1 2 4 :=
  ⟨by decide,
    fix_bump_c5 (Version.mk 1 2 3)
      (ConventionalCommit.mk "fix" none "" none [] false) (by decide) (Or.inl rfl)⟩

/-- C6: for every previous version and every commit classified Feat whose
breaking-change rule does not fire, the candidate increments minor by
one, resets patch to zero and keeps major. -/
theorem feat_bump_c6 (prev : Version) (c : ConventionalCommit)
    (hty : ConventionalCommitType.new c.ty = ConventionalCommitType.Feat)
    (hnb : c.is_breaking_change = false ∨ prev.major = 0) :
    candidateOf prev c = Version.mk prev.major (prev.minor + 1) 0 := by
  have hguard : ¬(c.is_breaking_change = true ∧ prev.major ≠ 0) := by
    rcases hnb with h | h <;> simp [h]
  simp only [candidateOf]
  rw [if_neg hguard, hty]

/-- Witness for C6 at previous = 1.2.3 and a plain feat commit. -/
theorem feat_bump_c6_witness :
    ConventionalCommitType.new "feat" = ConventionalCommitType.Feat ∧
    candidateOf (Version.mk 1 2 3)
      (ConventionalCommit.mk "feat" none "" none [] false) = Version.mk 1 3 0 :=
  ⟨by decide,
    feat_bump_c6 (Version.mk 1 2 3)
      (ConventionalCommit.mk "feat" none "" none [] false) (by decide) (Or.inl rfl)⟩

/-- C7: for every previous version and every commit classified neither
Fix nor Feat whose breaking-change rule does not fire, the candidate is
previous unchanged. -/
theorem noop_types_c7 (prev : Version) (c : ConventionalCommit)
    (hfix : ConventionalCommitType.new c.ty ≠ ConventionalCommitType.Fix)
    (hfeat : ConventionalCommitType.new c.ty ≠ ConventionalCommitType.Feat)
    (hnb : c.is_breaking_change = false ∨ prev.major = 0) :
    candidateOf prev c = prev := by
  have hguard : ¬(c.is_breaking_change = true ∧ prev.major ≠ 0) := by
    rcases hnb with h | h <;> simp [h]
  simp only [candidateOf]
  rw [if_neg hguard]

/-- Witness for C7 at previous = 1.2.3 and a plain chore commit. -/
theorem noop_types_c7_witness :
    ConventionalCommitType.new "chore" ≠ ConventionalCommitType.Fix ∧
    candidateOf (Version.mk 1 2 3)
      (ConventionalCommit.mk "chore" none "" none [] false) = Version.mk 1 2 3 :=
  ⟨by decide,
    noop_types_c7 (Version.mk 1 2 3)
      (ConventionalCommit.mk "chore" none "" none [] false)
      (by decide) (by decide) (Or.inl rfl)⟩

/-- C8: when the breaking-change flag is set but previous.major is zero,
the guard does not fire and the candidate equals the candidate computed
for the same commit with the flag cleared, so the type-based rules apply
exactly as if the flag were false. -/
theorem zero_major_breaking_c8 (prev : Version) (c : ConventionalCommit)
    (_hbrk : c.is_breaking_change = true) (hmaj : prev.major = 0) :
    candidateOf prev c =
      candidateOf prev { c with is_breaking_change := false } := by
  simp only [candidateOf]
  rw [if_neg (by simp [hmaj]), if_neg (by simp)]

/-- Witness for C8 at previous = 0.3.5 and a breaking feat commit: both
sides evaluate to 0.4.0. -/
theorem zero_major_breaking_c8_witness :
    (Version.mk 0 3 5).major = 0 ∧
    candidateOf (Version.mk 0 3 5)
      (ConventionalCommit.mk "feat" none "" none [] true) =
      candidateOf (Version.mk 0 3 5)
        (ConventionalCommit.mk "feat" none "" none [] false) ∧
    candidateOf (Version.mk 0 3 5)
      (ConventionalCommit.mk "feat" none "" none [] true) = Version.mk 0 4 0 :=
  ⟨rfl,
    zero_major_breaking_c8 (Version.mk 0 3 5)
      (ConventionalCommit.mk "feat" none "" none [] true) rfl rfl,
    by decide⟩

/-- C3 counterexample: classification does not normalize case; the token
Feat resolves to Custom rather than to the Feat variant. -/
theorem classification_case_c3_counterexample :
    ConventionalCommitType.new "Feat" = ConventionalCommitType.Custom "Feat" ∧
    ConventionalCommitType.new "Feat" ≠ ConventionalCommitType.Feat := by
  decide

/-- C3 amended: classification matches the raw token case-sensitively
against the lowercase-snake serializations, with no normalization; feat
resolves to Feat while Feat and FEAT resolve to Custom carrying the
original token. -/
theorem classification_case_sensitive_c3 :
    ConventionalCommitType.new "feat" = ConventionalCommitType.Feat ∧
    ConventionalCommitType.new "Feat" = ConventionalCommitType.Custom "Feat" ∧
    ConventionalCommitType.new "FEAT" = ConventionalCommitType.Custom "FEAT" := by
  decide

/-- C9: classification is total and deterministic: every string yields
exactly one type, classifying twice gives equal results, and any token
outside the eleven known tokens yields Custom carrying the original
token. -/
theorem classification_total_c9 (s : String) :
    (∃! t, ConventionalCommitType.new s = t) ∧
    ConventionalCommitType.new s = ConventionalCommitType.new s ∧
    (s ∉ knownTypeTokens →
      ConventionalCommitType.new s = ConventionalCommitType.Custom s) := by
  refine ⟨⟨ConventionalCommitType.new s, rfl, fun t ht => ht.symm⟩, rfl, ?_⟩
  intro hs
  simp only [knownTypeTokens, List.mem_cons, List.not_mem_nil, or_false] at hs
  push_neg at hs
  obtain ⟨h1, h2, h3, h4, h5, h6, h7, h8, h9, h10, h11⟩ := hs
  simp [ConventionalCommitType.new, ConventionalCommitType.from_str,
    h1, h2, h3, h4, h5, h6, h7, h8, h9, h10, h11]

/-- Witness for C9 at the token banana, which is not a known token and
classifies to Custom banana. -/
theorem classification_total_c9_witness :
    "banana" ∉ knownTypeTokens ∧
    ConventionalCommitType.new "banana" =
      ConventionalCommitType.Custom "banana" :=
  ⟨by decide, (classification_total_c9 "banana").2.2 (by decide)⟩

/-- C4: when current equals previous the engine returns Patch carrying
the candidate, even when the candidate equals previous. -/
theorem no_manual_edit_patch_c4 (prev cur : Version) (c : ConventionalCommit)
    (heq : cur = prev) :
    VersionUpdateHandler.get_next_version ⟨prev, cur, c⟩ =
      Except.ok (ProcessResult.Patch (candidateOf prev c)) := by
  subst heq
  simp [VersionUpdateHandler.get_next_version]

/-- Witness for C4 at previous = current = 1.2.3 and a chore commit: the
Patch outcome carries 1.2.3, equal to previous. -/
theorem no_manual_edit_patch_c4_witness :
    Version.mk 1 2 3 = Version.mk 1 2 3 ∧
    VersionUpdateHandler.get_next_version
      ⟨Version.mk 1 2 3, Version.mk 1 2 3,
        ConventionalCommit.mk "chore" none "" none [] false⟩ =
      Except.ok (ProcessResult.Patch (Version.mk 1 2 3)) := by
  refine ⟨rfl, ?_⟩
  rw [no_manual_edit_patch_c4 (Version.mk 1 2 3) (Version.mk 1 2 3)
    (ConventionalCommit.mk "chore" none "" none [] false) rfl]
  rfl

/-- C2: the engine always produces exactly one of the three outcome
shapes, and on a manual edit it returns ManualChanged when current is at
least the candidate and the typed VersionTooWeak value when current is
below the candidate. -/
theorem manual_edit_outcomes_c2 (prev cur : Version) (c : ConventionalCommit) :
    exactlyOneOutcome (VersionUpdateHandler.get_next_version ⟨prev, cur, c⟩) ∧
    (cur ≠ prev →
      (Version.le (candidateOf prev c) cur →
        VersionUpdateHandler.get_next_version ⟨prev, cur, c⟩ =
          Except.ok (ProcessResult.ManualChanged prev cur)) ∧
      (Version.lt cur (candidateOf prev c) →
        VersionUpdateHandler.get_next_version ⟨prev, cur, c⟩ =
          Except.error (VersionUpdateTooWeak.mk (candidateOf prev c) cur))) := by
  constructor
  · unfold exactlyOneOutcome
    simp only [VersionUpdateHandler.get_next_version]
    by_cases hc : cur ≠ prev
    · rw [if_pos hc]
      by_cases hlt : Version.lt cur (candidateOf prev c)
      · rw [if_pos hlt]
        right; right
        simp
      · rw [if_neg hlt]
        right; left
        simp
    · rw [if_neg hc]
      left
      simp
  · intro hne
    constructor
    · intro hle
      have hnlt : ¬ Version.lt cur (candidateOf prev c) :=
        (Version.not_lt_iff_le cur (candidateOf prev c)).mpr hle
      simp only [VersionUpdateHandler.get_next_version]
      rw [if_pos hne, if_neg hnlt]
    · intro hlt
      simp only [VersionUpdateHandler.get_next_version]
      rw [if_pos hne, if_pos hlt]

/-- Witness for C2 at previous = 1.2.3, current = 1.4.0 and a plain feat
commit: the candidate 1.3.0 is below current, so the engine accepts the
manual change. -/
theorem manual_edit_outcomes_c2_witness :
    Version.mk 1 4 0 ≠ Version.mk 1 2 3 ∧
    VersionUpdateHandler.get_next_version
      ⟨Version.mk 1 2 3, Version.mk 1 4 0,
        ConventionalCommit.mk "feat" none "" none [] false⟩ =
      Except.ok (ProcessResult.ManualChanged (Version.mk 1 2 3) (Version.mk 1 4 0)) :=
  ⟨by decide,
    ((manual_edit_outcomes_c2 (Version.mk 1 2 3) (Version.mk 1 4 0)
      (ConventionalCommit.mk "feat" none "" none [] false)).2
        (by decide)).1 (by decide)⟩

/-- C10: the candidate never goes below previous, the engine returns
ManualChanged only when current is strictly above previous, and any
manual downgrade is reported as the typed VersionTooWeak value. -/
theorem candidate_monotone_c10 (prev cur : Version) (c : ConventionalCommit) :
    Version.le prev (candidateOf prev c) ∧
    (VersionUpdateHandler.get_next_version ⟨prev, cur, c⟩ =
        Except.ok (ProcessResult.ManualChanged prev cur) →
      Version.lt prev cur) ∧
    (Version.lt cur prev →
      VersionUpdateHandler.get_next_version ⟨prev, cur, c⟩ =
        Except.error (VersionUpdateTooWeak.mk (candidateOf prev c) cur)) := by
  have hmono : Version.le prev (candidateOf prev c) := by
    obtain ⟨p1, p2, p3⟩ := prev
    simp only [candidateOf]
    by_cases hg : c.is_breaking_change = true ∧ (Version.mk p1 p2 p3).major ≠ 0
    · rw [if_pos hg]
      simp only [Version.le, Version.lt, Version.mk.injEq] at *
      omega
    · rw [if_neg hg]
      split <;> simp [Version.le, Version.lt]
  refine ⟨hmono, ?_, ?_⟩
  · intro hman
    by_cases hc : cur ≠ prev
    · by_cases hlt : Version.lt cur (candidateOf prev c)
      · exfalso
        simp only [VersionUpdateHandler.get_next_version] at hman
        rw [if_pos hc, if_pos hlt] at hman
        exact Except.noConfusion hman
      · have hle : Version.le (candidateOf prev c) cur :=
          (Version.not_lt_iff_le cur (candidateOf prev c)).mp hlt
        exact Version.lt_of_le_of_le_of_ne prev (candidateOf prev c) cur
          hmono hle (Ne.symm hc)
    · exfalso
      push_neg at hc
      simp only [VersionUpdateHandler.get_next_version] at hman
      rw [if_neg (by simp [hc])] at hman
      simp at hman
  · intro hlt
    have hne : cur ≠ prev := by
      intro he
      exact (Version.not_lt_iff_le cur cur).mpr (Or.inr rfl) (he ▸ hlt)
    have hltc : Version.lt cur (candidateOf prev c) :=
      Version.lt_of_lt_of_le cur prev (candidateOf prev c) hlt hmono
    simp only [VersionUpdateHandler.get_next_version]
    rw [if_pos hne, if_pos hltc]

/-- Witness for C10 at previous = 1.2.3, current = 1.2.2 and a chore
commit: the manual downgrade is reported as VersionTooWeak expecting at
least 1.2.3. -/
theorem candidate_monotone_c10_witness :
    Version.lt (Version.mk 1 2 2) (Version.mk 1 2 3) ∧
    VersionUpdateHandler.get_next_version
      ⟨Version.mk 1 2 3, Version.mk 1 2 2,
        ConventionalCommit.mk "chore" none "" none [] false⟩ =
      Except.error (VersionUpdateTooWeak.mk (Version.mk 1 2 3) (Version.mk 1 2 2)) := by
  refine ⟨by decide, ?_⟩
  rw [(candidate_monotone_c10 (Version.mk 1 2 3) (Version.mk 1 2 2)
    (ConventionalCommit.mk "chore" none "" none [] false)).2.2 (by decide)]
  exact congrArg Except.error (by decide)

end SemverBump
